import Mathlib

/-!
Verification of the scriggo core spec against the source.

The first part embeds the bytecode emitter `FunctionBuilder` from
`src/vm/builder.go`: register classes, the scope/virtual-stack machinery,
constant pools, labels and forward jumps, and finalization (`End`).
Machine integers (`int8`, `uint8`, `uint32`) are modelled as `Int`/`Nat`
with explicit wrapping where Go wraps.
-/

namespace Scrigo

/-- Go `int8(n)` conversion of an unsigned value `n` (wraps at 128). -/
def int8ofNat (n : Nat) : Int :=
  if n % 256 < 128 then ((n % 256 : Nat) : Int) else ((n % 256 : Nat) : Int) - 256

/-- Go `uint8(z)` conversion of a signed value `z` (two's complement). -/
def uint8ofInt (z : Int) : Nat :=
  (z % 256).toNat

/-- Wrap an integer into the Go `int8` range `[-128, 127]`. -/
def int8wrap (z : Int) : Int :=
  (z + 128) % 256 - 128

/-- The four register classes of the VM (`TypeInt`, `TypeFloat`,
`TypeString`, `TypeIface`). -/
inductive RegClass where
  | rInt | rFloat | rString | rIface
  deriving DecidableEq, Repr

/-- The subset of `reflect.Kind` values the builder receives. -/
inductive Kind where
  | kBool
  | kInt | kInt8 | kInt16 | kInt32 | kInt64
  | kUint | kUint8 | kUint16 | kUint32 | kUint64 | kUintptr
  | kFloat32 | kFloat64
  | kString
  | kInterface | kSlice | kMap | kStruct | kPtr | kChan | kFunc
  deriving DecidableEq, Repr

/-- Modelled from the spec: `kindToType` lowers a `reflect.Kind` to a register
class ("all integer widths collapse to `Int`, both float widths to `Float`,
all boxed/interface/composite types to `General`"); its Go source is not under
`src/`, only its callers in `src/vm/builder.go` are. -/
def kindToType : Kind → RegClass
  | .kInt | .kInt8 | .kInt16 | .kInt32 | .kInt64 => .rInt
  | .kUint | .kUint8 | .kUint16 | .kUint32 | .kUint64 | .kUintptr => .rInt
  | .kBool => .rInt
  | .kFloat32 | .kFloat64 => .rFloat
  | .kString => .rString
  | _ => .rIface

/-- Index of a register class in the `RegNum` array of a function
(`End` in `src/vm/builder.go` commits Int to 0, Float to 1, String to 2 and
everything else to 3). -/
def classIndex : RegClass → Fin 4
  | .rInt => 0
  | .rFloat => 1
  | .rString => 2
  | .rIface => 3

/-- Base operation codes of the instructions the claims exercise, from
`src/vm/builder.go` (the numeric code table itself is not under `src/`;
codes are modelled as a tagged enumeration, which is faithful because the
builder only ever compares and negates them). -/
inductive BaseOp where
  | opGoto | opNone | opSelector
  | opSubInt | opSubInt32 | opSubInt16 | opSubInt8
  | opSubFloat64 | opSubFloat32
  | opSubInvInt | opSubInvInt32 | opSubInvInt16 | opSubInvInt8
  | opSubInvFloat64 | opSubInvFloat32
  deriving DecidableEq, Repr

/-- An instruction `{op, A, B, C}`.  A negated `op` in the Go source (the
constant-operand variant) is modelled by the `konst` flag on the base code. -/
structure Instr where
  op : BaseOp
  konst : Bool := false
  a : Int := 0
  b : Int := 0
  c : Int := 0
  deriving DecidableEq, Repr

/-- The parts of `ScrigoFunction` that the builder writes: the instruction
body, the four-entry committed register high-water marks `RegNum`, and the
four constant pools.  Constant values stored in the `Float` and `General`
pools are never inspected by the builder, so they are carried as an opaque
payload type `GoValue`. -/
structure GoValue where
  id : Nat
  deriving DecidableEq, Repr

structure ScrigoFunction where
  body : List Instr := []
  regNum : Fin 4 → Nat := fun _ => 0
  constInt : List Int := []
  constFloat : List GoValue := []
  constString : List String := []
  constGeneral : List GoValue := []

/-- A virtual-stack shift: the four per-class register counts saved on
`EnterStack` (stored as Go `int8` values). -/
structure StackShift where
  s0 : Int
  s1 : Int
  s2 : Int
  s3 : Int
  deriving DecidableEq, Repr

/-- Go run-time panics raised by the builder (`panic(...)` calls in
`src/vm/builder.go`). -/
inductive GoErr where
  | stringRefsLimit | generalRefsLimit | floatRefsLimit | intRefsLimit
  | interfaceRefsLimit
  | subInvalidType | subInvInvalidType
  | gotoBug | indexOutOfRange
  deriving DecidableEq, Repr

/-- The state of a `FunctionBuilder`: the function being built, the label
table, the pending forward-jump fixups, the per-class simultaneous-register
high-water marks (`maxRegs`) and current counts (`numRegs`), the scope stack
and the virtual-stack shift stack.  The Go `map[reflect.Kind]uint8` fields
only ever hold normalized kinds, so they are modelled as total functions from
`RegClass` with default 0 (absence and 0 are indistinguishable because
`allocRegister` guards on `reg > 0`). -/
structure Builder where
  fn : ScrigoFunction
  labels : List Nat := []
  gotos : List (Nat × Nat) := []
  maxRegs : RegClass → Nat := fun _ => 0
  numRegs : RegClass → Nat := fun _ => 0
  scopes : List (List (String × Int)) := []
  scopeShifts : List StackShift := []

/-- `NewBuilder`: takes a function, clears its body. -/
def newBuilder (fn : ScrigoFunction) : Builder :=
  { fn := { fn with body := [] } }

/-- Update a `RegClass`-indexed map at one class. -/
def updC (m : RegClass → Nat) (c : RegClass) (v : Nat) : RegClass → Nat :=
  fun c' => if c' = c then v else m c'

/-- `allocRegister(kind, reg)`: normalizes the kind and, when `reg > 0`,
raises the `maxRegs` and `numRegs` entries of the class to `uint8(reg)`. -/
def allocRegister (kind : Kind) (reg : Int) (b : Builder) : Builder :=
  let c := kindToType kind
  if reg > 0 then
    let r := uint8ofInt reg
    let b := if r > b.maxRegs c then { b with maxRegs := updC b.maxRegs c r } else b
    if r > b.numRegs c then { b with numRegs := updC b.numRegs c r } else b
  else b

/-- Canonical representative kind of a register class (the Go code reassigns
`kind` to `reflect.Int`, `reflect.Float64`, `reflect.String` or
`reflect.Interface` before indexing the maps). -/
def RegClass.toKind : RegClass → Kind
  | .rInt => .kInt
  | .rFloat => .kFloat64
  | .rString => .kString
  | .rIface => .kInterface

/-- `NewRegister(kind)`: returns `int8(numRegs[class]) + 1` and registers it. -/
def newRegister (kind : Kind) (b : Builder) : Int × Builder :=
  let c := kindToType kind
  let reg := int8wrap (int8ofNat (b.numRegs c) + 1)
  (reg, allocRegister c.toKind reg b)

/-- `EnterStack`: pushes the four current per-class counts (as `int8`). -/
def enterStack (b : Builder) : Builder :=
  let shift : StackShift :=
    { s0 := int8ofNat (b.numRegs .rInt)
      s1 := int8ofNat (b.numRegs .rFloat)
      s2 := int8ofNat (b.numRegs .rString)
      s3 := int8ofNat (b.numRegs .rIface) }
  { b with scopeShifts := b.scopeShifts ++ [shift] }

/-- `ExitStack`: restores the four per-class counts from the top shift and
pops it (Go panics when the shift stack is empty, hence `Except`). -/
def exitStack (b : Builder) : Except GoErr Builder :=
  match b.scopeShifts.getLast? with
  | none => .error .indexOutOfRange
  | some shift =>
    .ok { b with
          numRegs := fun c =>
            match c with
            | .rInt => uint8ofInt shift.s0
            | .rFloat => uint8ofInt shift.s1
            | .rString => uint8ofInt shift.s2
            | .rIface => uint8ofInt shift.s3,
          scopeShifts := b.scopeShifts.dropLast }

/-- `CurrentAddr`: the length of the body. -/
def currentAddr (b : Builder) : Nat :=
  b.fn.body.length

/-- `NewLabel`: appends a zero slot and returns the 1-based label id. -/
def newLabel (b : Builder) : Nat × Builder :=
  let b := { b with labels := b.labels ++ [0] }
  (b.labels.length, b)

/-- `SetLabelAddr(label)`: binds the label's slot to the current address
(Go panics when `label - 1` is out of range). -/
def setLabelAddr (label : Nat) (b : Builder) : Except GoErr Builder :=
  if label - 1 < b.labels.length then
    .ok { b with labels := b.labels.set (label - 1) (currentAddr b) }
  else .error .indexOutOfRange

/-- `encodeAddr(v)`: little-endian split of a 24-bit address into the three
`int8` operands `(a, b, c)`. -/
def encodeAddr (v : Nat) : Int × Int × Int :=
  (int8ofNat (v % 256), int8ofNat ((v / 256) % 256), int8ofNat ((v / 65536) % 256))

/-- Decoding of the `(A, B, C)` operand bytes back into a 24-bit value,
little-endian: byte 0 from `A`, byte 1 from `B`, byte 2 from `C`. -/
def decodeAddr (a b c : Int) : Nat :=
  uint8ofInt a + 256 * uint8ofInt b + 65536 * uint8ofInt c

/-- `Goto(label)`: emits a jump; a still-unbound target records a pending
fixup keyed by the jump's address, a bound target is encoded immediately. -/
def goto (label : Nat) (b : Builder) : Except GoErr Builder :=
  if label > 0 then
    if label > b.labels.length then .error .gotoBug
    else
      let addr := b.labels.getD (label - 1) 0
      if addr = 0 then
        .ok { b with
              gotos := b.gotos ++ [(currentAddr b, label)],
              fn := { b.fn with body := b.fn.body ++ [{ op := .opGoto }] } }
      else
        let (x, y, z) := encodeAddr addr
        .ok { b with fn := { b.fn with
              body := b.fn.body ++ [{ op := .opGoto, a := x, b := y, c := z }] } }
  else
    .ok { b with fn := { b.fn with body := b.fn.body ++ [{ op := .opGoto }] } }

/-- `Nop`: appends an `OpNone` instruction. -/
def nop (b : Builder) : Builder :=
  { b with fn := { b.fn with body := b.fn.body ++ [{ op := .opNone }] } }

/-- Patch one pending forward jump: write `encodeAddr(labels[label-1])` into
the `A`, `B`, `C` operands of the instruction at `addr` (Go panics on an
out-of-range index). -/
def patchGoto (labels : List Nat) (body : List Instr) (al : Nat × Nat) :
    Except GoErr (List Instr) :=
  match labels.get? (al.2 - 1) with
  | none => .error .indexOutOfRange
  | some addr =>
    match body.get? al.1 with
    | none => .error .indexOutOfRange
    | some i =>
      let (x, y, z) := encodeAddr addr
      .ok (body.set al.1 { i with a := x, b := y, c := z })

/-- The register class committed to each `RegNum` index by `End`'s kind
ranges (`reflect.Int..reflect.Uint64` to 0, floats to 1, string to 2,
default to 3); inverse of `classIndex` on the normalized keys. -/
def ixClass : Fin 4 → RegClass
  | 0 => .rInt
  | 1 => .rFloat
  | 2 => .rString
  | 3 => .rIface

/-- `End()`: patches every pending forward jump, then commits each class's
high-water mark into the function's `RegNum` entry (raising it only when the
tracked maximum exceeds the stored value). -/
def endBuilder (b : Builder) : Except GoErr ScrigoFunction := do
  let body ← b.gotos.foldlM (patchGoto b.labels) b.fn.body
  let regNum : Fin 4 → Nat := fun i =>
    let num := b.maxRegs (ixClass i)
    if num > b.fn.regNum i then num else b.fn.regNum i
  return { b.fn with body := body, regNum := regNum }

/-- `MakeStringConstant`: appends when the pool holds at most 255 entries and
returns `int8(previous length)`; otherwise panics. -/
def makeStringConstant (c : String) (b : Builder) : Except GoErr (Int × Builder) :=
  let r := b.fn.constString.length
  if r > 255 then .error .stringRefsLimit
  else .ok (int8ofNat r,
    { b with fn := { b.fn with constString := b.fn.constString ++ [c] } })

/-- `MakeGeneralConstant`: as `MakeStringConstant`, on the `General` pool. -/
def makeGeneralConstant (v : GoValue) (b : Builder) : Except GoErr (Int × Builder) :=
  let r := b.fn.constGeneral.length
  if r > 255 then .error .generalRefsLimit
  else .ok (int8ofNat r,
    { b with fn := { b.fn with constGeneral := b.fn.constGeneral ++ [v] } })

/-- `MakeFloatConstant`: as `MakeStringConstant`, on the `Float` pool. -/
def makeFloatConstant (c : GoValue) (b : Builder) : Except GoErr (Int × Builder) :=
  let r := b.fn.constFloat.length
  if r > 255 then .error .floatRefsLimit
  else .ok (int8ofNat r,
    { b with fn := { b.fn with constFloat := b.fn.constFloat ++ [c] } })

/-- `MakeIntConstant`: as `MakeStringConstant`, on the `Int` pool. -/
def makeIntConstant (c : Int) (b : Builder) : Except GoErr (Int × Builder) :=
  let r := b.fn.constInt.length
  if r > 255 then .error .intRefsLimit
  else .ok (int8ofNat r,
    { b with fn := { b.fn with constInt := b.fn.constInt ++ [c] } })

/-- `MakeInterfaceConstant`: computes `r = -len(General) - 1`, panics when
`r = -129`, appends to the `General` pool and returns `int8(r)` — the wrapping
conversion, since the guard only excludes exactly −129: on a `General` pool
already holding 129 or more entries (reachable through `MakeGeneralConstant`)
`r` is below −129 and the returned index wraps. -/
def makeInterfaceConstant (c : GoValue) (b : Builder) : Except GoErr (Int × Builder) :=
  let r : Int := -(b.fn.constGeneral.length : Int) - 1
  if r = -129 then .error .interfaceRefsLimit
  else .ok (int8wrap r,
    { b with fn := { b.fn with constGeneral := b.fn.constGeneral ++ [c] } })

/-- `Sub(k, x, y, z, kind)`: registers `x`, `y` (when `y` is not a constant)
and `z` — always in the `reflect.Int` class, exactly as the source does —
selects the opcode by kind, negates it when `k` is set, and appends. -/
def sub (k : Bool) (x y z : Int) (kind : Kind) (b : Builder) :
    Except GoErr Builder :=
  let b := allocRegister .kInt x b
  let b := if !k then allocRegister .kInt y b else b
  let b := allocRegister .kInt z b
  match (match kind with
    | .kInt | .kInt64 | .kUint | .kUint64 => some BaseOp.opSubInt
    | .kInt32 | .kUint32 => some .opSubInt32
    | .kInt16 | .kUint16 => some .opSubInt16
    | .kInt8 | .kUint8 => some .opSubInt8
    | .kFloat64 => some .opSubFloat64
    | .kFloat32 => some .opSubFloat32
    | _ => none) with
  | none => .error .subInvalidType
  | some op =>
    .ok { b with fn := { b.fn with
          body := b.fn.body ++ [{ op := op, konst := k, a := x, b := y, c := z }] } }

/-- `SubInv(k, x, y, z, kind)`: same register handling as `Sub` (also always
in the `reflect.Int` class), with the inverted-subtraction opcode family. -/
def subInv (k : Bool) (x y z : Int) (kind : Kind) (b : Builder) :
    Except GoErr Builder :=
  let b := allocRegister .kInt x b
  let b := if !k then allocRegister .kInt y b else b
  let b := allocRegister .kInt z b
  match (match kind with
    | .kInt | .kInt64 | .kUint | .kUint64 => some BaseOp.opSubInvInt
    | .kInt32 | .kUint32 => some .opSubInvInt32
    | .kInt16 | .kUint16 => some .opSubInvInt16
    | .kInt8 | .kUint8 => some .opSubInvInt8
    | .kFloat64 => some .opSubInvFloat64
    | .kFloat32 => some .opSubInvFloat32
    | _ => none) with
  | none => .error .subInvInvalidType
  | some op =>
    .ok { b with fn := { b.fn with
          body := b.fn.body ++ [{ op := op, konst := k, a := x, b := y, c := z }] } }

/-- `Selector(a, field, c)`: appends `C = A.field` without registering any
operand. -/
def selector (a field c : Int) (b : Builder) : Builder :=
  { b with fn := { b.fn with
      body := b.fn.body ++ [{ op := .opSelector, a := a, b := field, c := c }] } }

/-- Modelled from the spec: which operands of an instruction are used as
registers, and in which class (the VM decode loop is out of scope of `src/`).
For the `Sub`/`SubInv` families operands `A` and `C` are registers of the
operation's scalar class and `B` is a register unless the constant flag is
set; for `Selector`, `A` and `C` are `General` registers and `B` is a field
index; `Goto` and `Nop` have no register operands. -/
def instrRegOperands (i : Instr) : List (RegClass × Int) :=
  match i.op with
  | .opSubInt | .opSubInt32 | .opSubInt16 | .opSubInt8
  | .opSubInvInt | .opSubInvInt32 | .opSubInvInt16 | .opSubInvInt8 =>
    [(.rInt, i.a)] ++ (if i.konst then [] else [(.rInt, i.b)]) ++ [(.rInt, i.c)]
  | .opSubFloat64 | .opSubFloat32 | .opSubInvFloat64 | .opSubInvFloat32 =>
    [(.rFloat, i.a)] ++ (if i.konst then [] else [(.rFloat, i.b)]) ++ [(.rFloat, i.c)]
  | .opSelector => [(.rIface, i.a), (.rIface, i.c)]
  | .opGoto | .opNone => []

/-- The register/high-water-mark invariant of spec §8.1: every operand used
as a register in an emitted instruction has absolute value at most the
finalized high-water mark of its class. -/
def regOperandsBounded (fn : ScrigoFunction) : Prop :=
  ∀ i ∈ fn.body, ∀ p ∈ instrRegOperands i, p.2.natAbs ≤ fn.regNum (classIndex p.1)

instance (fn : ScrigoFunction) : Decidable (regOperandsBounded fn) := by
  unfold regOperandsBounded
  infer_instance

/-! Concrete builder call sequences exercised by the claims. -/

/-- The C1 scenario: `EnterStack; r1 = NewRegister(Int); r2 = NewRegister(Int);
ExitStack; r3 = NewRegister(Int); End()` on a fresh builder. -/
def c1run : Except GoErr (Int × Int × Int × ScrigoFunction) := do
  let b := newBuilder {}
  let b := enterStack b
  let (r1, b) := newRegister .kInt b
  let (r2, b) := newRegister .kInt b
  let b ← exitStack b
  let (r3, b) := newRegister .kInt b
  let fn ← endBuilder b
  return (r1, r2, r3, fn)

/-- The C2 scenario: `lbl = NewLabel(); Goto(lbl); a = CurrentAddr(); Nop();
SetLabelAddr(lbl); End()` on a fresh builder; returns `a` and the finalized
function. -/
def c2run : Except GoErr (Nat × ScrigoFunction) := do
  let b := newBuilder {}
  let (lbl, b) := newLabel b
  let b ← goto lbl b
  let a := currentAddr b
  let b := nop b
  let b ← setLabelAddr lbl b
  let fn ← endBuilder b
  return (a, fn)

/-- The C3 failing input: `Sub(k=false, x=1, y=1, z=1, kind=Float64); End()`
on a fresh builder. -/
def c3run : Except GoErr ScrigoFunction :=
  (sub false 1 1 1 .kFloat64 (newBuilder {})).bind endBuilder

/-- The function produced by the C3 failing input. -/
def c3fn : ScrigoFunction :=
  (c3run.toOption).getD {}

/-- `n` successive `MakeInterfaceConstant` calls on a fresh builder,
collecting the returned indices. -/
def iterInterface : Nat → Except GoErr (List Int × Builder)
  | 0 => .ok ([], newBuilder {})
  | n + 1 => do
    let (rs, b) ← iterInterface n
    let (r, b) ← makeInterfaceConstant ⟨0⟩ b
    return (rs ++ [r], b)

/-!
Template parser model (`src/parser/parser.go`): the `tokenExtends` case of
`parseStatement` and the type-switch `case` validation of the `tokenCase`
case.
-/

/-- `ast.Context` values. -/
inductive Ctx where
  | ctxNone | text | html | css | script | attribute | unquotedAttribute
  deriving DecidableEq, Repr

/-- The kinds of nodes that can appear in `tree.Nodes` as far as the extends
position check is concerned: the check only asks whether a node is an
`*ast.Text`, so all other node kinds are summarized by dedicated tags. -/
inductive NodeK where
  | text | ifN | extendsN | includeN | otherN
  deriving DecidableEq, Repr

/-- Token types consumed by the extends case after the keyword. -/
inductive TokTyp where
  | interpretedString | rawString | endStatement | otherTok
  deriving DecidableEq, Repr

/-- The parsing-state fields read and written by the extends case. -/
structure ExtState where
  ctx : Ctx
  isExtended : Bool
  treeNodes : List NodeK
  deriving DecidableEq, Repr

/-- The errors the extends case can raise. -/
inductive ParseErr where
  | extendsNotInTemplate
  | extendsAlreadyExists
  | extendsNotFirst
  | extendsInAttribute
  | extendsInScript
  | extendsInStyle
  | expectingString
  | invalidExtendsPath (path : String)
  | expectingEndStatement
  deriving DecidableEq, Repr

/-- The diagnostic text of each extends-case error, verbatim from the
source (`%s`/`%q` stand for the formatted token and path). -/
def parseErrMsg : ParseErr → String
  | .extendsNotInTemplate => "extends statement not in template"
  | .extendsAlreadyExists => "extends already exists"
  | .extendsNotFirst => "extends can only be the first statement"
  | .extendsInAttribute => "extends inside an attribute value"
  | .extendsInScript => "extends inside a script tag"
  | .extendsInStyle => "extends inside a style tag"
  | .expectingString => "unexpected %s, expecting string"
  | .invalidExtendsPath _ => "invalid extends path %q"
  | .expectingEndStatement => "unexpected %s, expecting %\x7d"

/-- The `tokenExtends` case of `parseStatement`: context check, single-extends
check, first-statement check against the root tree's nodes, token-context
checks, then path-token and end-token checks; on success the extends node is
added and `isExtended` is set.  `validPath` is passed in because its source is
not under `src/`. -/
def parseExtendsCase (p : ExtState) (tokCtx : Ctx) (pathTokTyp : TokTyp)
    (pathTxt : String) (validPath : String → Bool) (endTokTyp : TokTyp) :
    Except ParseErr ExtState :=
  if p.ctx = .ctxNone then .error .extendsNotInTemplate
  else if p.isExtended then .error .extendsAlreadyExists
  else if p.treeNodes.length > 0 ∧
      (p.treeNodes.head? ≠ some NodeK.text ∨ p.treeNodes.length > 1) then
    .error .extendsNotFirst
  else if tokCtx ≠ p.ctx ∧ (tokCtx = .attribute ∨ tokCtx = .unquotedAttribute) then
    .error .extendsInAttribute
  else if tokCtx ≠ p.ctx ∧ tokCtx = .script then .error .extendsInScript
  else if tokCtx ≠ p.ctx ∧ tokCtx = .css then .error .extendsInStyle
  else if pathTokTyp ≠ .interpretedString ∧ pathTokTyp ≠ .rawString then
    .error .expectingString
  else if ¬ validPath pathTxt then .error (.invalidExtendsPath pathTxt)
  else if endTokTyp ≠ .endStatement then .error .expectingEndStatement
  else .ok { p with treeNodes := p.treeNodes ++ [NodeK.extendsN], isExtended := true }

/-- The expression forms distinguished by the type-switch case validation.
The Go code switches on the dynamic node type; every type other than
`*ast.Identifier`, `*ast.Int`, `*ast.Float` and `*ast.String` (for instance a
selector such as `x.y`) takes the `default:` branch, summarized by the single
`otherE` constructor.  `txt` carries the `%s` rendering of the node. -/
inductive CaseExpr where
  | ident (name : String)
  | intLit (txt : String)
  | floatLit (txt : String)
  | stringLit (txt : String)
  | otherE (txt : String)
  deriving DecidableEq, Repr

/-- The type-switch case validation loop of the `tokenCase` case of
`parseStatement`, run when the parent is an `*ast.TypeSwitch`: boolean
identifiers and int/float/string literals raise kind-specific "is not a type"
errors, any other identifier passes, and every other expression form raises
"`%s` is not a type". -/
def checkTypeSwitchCase : List CaseExpr → Except String Unit
  | [] => .ok ()
  | e :: rest =>
    match e with
    | .ident name =>
      if name = "true" ∨ name = "false" then
        .error (name ++ " (type bool) is not a type")
      else checkTypeSwitchCase rest
    | .intLit t => .error (t ++ " (type int) is not a type")
    | .floatLit t => .error (t ++ " (type float) is not a type")
    | .stringLit t => .error (t ++ " (type string) is not a type")
    | .otherE t => .error (t ++ " is not a type")

/-!
Expander model (`Parser.Parse`, `expansion.parsePath` and `expansion.expand`
of `src/parser/parser.go`).  The node set is the subset expansion acts on in
the modelled scenarios: text leaves and the three directive nodes; a
directive node carries its path, its lexer context and the (initially absent)
tree attached by expansion.
-/

/-- A template AST node as seen by expansion.  An attached tree is a pair of
the resolved path and the expanded node list. -/
inductive ENode where
  | text (s : String)
  | includeN (path : String) (ctx : Ctx) (tree : Option (String × List ENode))
  | importN (path : String) (ctx : Ctx) (tree : Option (String × List ENode))
  | extendsN (path : String) (ctx : Ctx) (tree : Option (String × List ENode))

/-- Errors of the parse/expand pipeline: `CycleError`, `ErrNotExist`,
`ErrInvalidPath`, a position-bearing `*Error` (whose `Path` starts empty and
is filled on the way out), a plain `fmt.Errorf` error, and fuel exhaustion of
the model's recursion bound (never reached in the scenarios). -/
inductive ExpErr where
  | cycle (chain : String)
  | errNotExist
  | errInvalidPath
  | errorPos (path : String) (msg : String)
  | plainErr (msg : String)
  | outOfFuel
  deriving DecidableEq, Repr

/-- The user-visible message of a `CycleError` (its `Error()` method). -/
def cycleMsg (chain : String) : String :=
  "cycle not allowed\n" ++ chain

/-- Split a character list into `/`-separated segments. -/
def splitSlash : List Char → List (List Char)
  | [] => [[]]
  | c :: rest =>
    let r := splitSlash rest
    if c = '/' then [] :: r
    else
      match r with
      | [] => [[c]]
      | s :: ss => (c :: s) :: ss

/-- Modelled from the spec: `toAbsolutePath` (not under `src/`) cleans the
path by collapsing `.` and `..` segments; a `..` that would escape the root
fails with `ErrInvalidPath`.  Segment processing over the split path. -/
def cleanSegments : List (List Char) → List (List Char) →
    Except ExpErr (List (List Char))
  | [], acc => .ok acc.reverse
  | s :: rest, acc =>
    if s = [] ∨ s = ['.'] then cleanSegments rest acc
    else if s = ['.', '.'] then
      match acc with
      | [] => .error .errInvalidPath
      | _ :: acc' => cleanSegments rest acc'
    else cleanSegments rest (s :: acc)

/-- Join segments with `/` separators. -/
def joinSegs : List (List Char) → List Char
  | [] => []
  | [s] => s
  | s :: rest => s ++ '/' :: joinSegs rest

/-- Modelled from the spec: resolve `path` against directory `dir` and clean
it, producing a root-anchored absolute path. -/
def toAbsolutePath (dir path : String) : Except ExpErr String := do
  let segs ← cleanSegments (splitSlash (dir ++ path).data) []
  return ⟨'/' :: joinSegs segs⟩

/-- `parent[:strings.LastIndex(parent, "/")+1]`: the directory part of a
path, up to and including the last slash (empty when there is none). -/
def dirOf (parent : String) : String :=
  match parent.data.reverse.findIdx? (· = '/') with
  | none => ""
  | some k => ⟨parent.data.take (parent.data.length - k)⟩

/-- Go `path[0] == '/'`. -/
def headIsSlash (path : String) : Bool :=
  match path.data with
  | '/' :: _ => true
  | _ => false

/-- Go `path[1:]`. -/
def dropFirst (path : String) : String :=
  ⟨path.data.drop 1⟩

/-- `expansion.abs(path)`: a leading `/` anchors to the template root,
otherwise the path is relative to the directory of the containing file (the
top of the path stack, which is never empty when `expand` runs). -/
def absExp (paths : List String) (path : String) : Except ExpErr String :=
  if headIsSlash path then toAbsolutePath "/" (dropFirst path)
  else toAbsolutePath (dirOf (paths.getLastD "")) path

/-- The reader consumed by the parser: a finite map from absolute path to the
(unexpanded) parsed node list of that file; a missing path is `ErrNotExist`.
(The source's `Reader.Read` returns a parsed `*ast.Tree` directly.) -/
abbrev ReaderMap := List (String × List ENode)

/-- The expansion state: the path stack of files being expanded, and the
(sequentially used) tree cache mapping `(path, ctx)` to a completed tree.
Modelled from the spec: the cache source is not under `src/`; in this
single-worker setting `get` is a lookup of completed entries, `add` inserts,
and `done` only affects reservations, which no second worker observes. -/
structure ExpSt where
  paths : List String
  treeCache : List ((String × Ctx) × (String × List ENode))

/-- `parsePath`'s fill of an empty `*Error` path on the way out. -/
def fillErrPath (e : ExpErr) (path : String) : ExpErr :=
  match e with
  | .errorPos "" msg => .errorPos path msg
  | e => e

/-- The error wrapping of the `Extends`/`Import`/`Include` cases of
`expansion.expand`: `ErrInvalidPath` becomes a plain invalid-path error,
`ErrNotExist` becomes a position-bearing syntax error naming the directive,
and a `CycleError` is prefixed with the directive keyword. -/
def wrapDirectiveErr (keyword : String) (notExistMsg : String) (e : ExpErr) : ExpErr :=
  match e with
  | .errInvalidPath => .plainErr "invalid path %q at %s"
  | .errNotExist => .errorPos "" notExistMsg
  | .cycle c => .cycle (keyword ++ " " ++ c)
  | e => e

mutual

/-- `expansion.parsePath(path, ctx)`: cycle check against the path stack,
cache lookup, read, push path, expand children, pop path, publish to the
cache.  `fuel` bounds the mutual recursion of the model (each recursive call
consumes one unit; it is never exhausted in the scenarios). -/
def parsePathE : Nat → ReaderMap → ExpSt → String → Ctx →
    Except ExpErr ((String × List ENode) × ExpSt)
  | 0, _, _, _, _ => .error .outOfFuel
  | fuel + 1, reader, st, path, ctx =>
    if path ∈ st.paths then .error (.cycle path)
    else
      match (st.treeCache.find? (fun e => e.1 = (path, ctx))).map (·.2) with
      | some t => .ok (t, st)
      | none =>
        match (reader.find? (fun e => e.1 = path)).map (·.2) with
        | none => .error .errNotExist
        | some nodes0 =>
          let st1 : ExpSt := { st with paths := st.paths ++ [path] }
          match expandNodes fuel reader st1 ctx nodes0 with
          | .error e => .error (fillErrPath e path)
          | .ok (nodes1, st2) =>
            let st3 : ExpSt := { st2 with paths := st2.paths.dropLast }
            let tree := (path, nodes1)
            .ok (tree, { st3 with treeCache := ((path, ctx), tree) :: st3.treeCache })
termination_by structural fuel reader st path ctx => fuel

/-- `expansion.expand(nodes, ctx)`: resolve each directive node in order,
attaching the parsed tree or propagating the (wrapped) error.  `Extends` is
legal only at path-stack depth 1. -/
def expandNodes : Nat → ReaderMap → ExpSt → Ctx → List ENode →
    Except ExpErr (List ENode × ExpSt)
  | _, _, st, _, [] => .ok ([], st)
  | 0, _, _, _, _ :: _ => .error .outOfFuel
  | fuel + 1, reader, st, ctx, n :: rest =>
    match n with
    | .text s =>
      (expandNodes fuel reader st ctx rest).map (fun p => (.text s :: p.1, p.2))
    | .extendsN p nctx _ =>
      if st.paths.length > 1 then
        .error (.errorPos "" "extended, imported and included paths can not have extends")
      else
        match absExp st.paths p with
        | .error e => .error e
        | .ok absP =>
          match parsePathE fuel reader st absP nctx with
          | .error e =>
            .error (wrapDirectiveErr "imports"
              ("extends path %q does not exist") e)
          | .ok (t, st') =>
            (expandNodes fuel reader st' ctx rest).map
              (fun q => (.extendsN p nctx (some t) :: q.1, q.2))
    | .importN p nctx _ =>
      match absExp st.paths p with
      | .error e => .error e
      | .ok absP =>
        match parsePathE fuel reader st absP nctx with
        | .error e =>
          .error (wrapDirectiveErr "imports" ("import path %q does not exist") e)
        | .ok (t, st') =>
          (expandNodes fuel reader st' ctx rest).map
            (fun q => (.importN p nctx (some t) :: q.1, q.2))
    | .includeN p nctx _ =>
      match absExp st.paths p with
      | .error e => .error e
      | .ok absP =>
        match parsePathE fuel reader st absP nctx with
        | .error e =>
          .error (wrapDirectiveErr "include" ("included path %q does not exist") e)
        | .ok (t, st') =>
          (expandNodes fuel reader st' ctx rest).map
            (fun q => (.includeN p nctx (some t) :: q.1, q.2))
termination_by structural fuel reader st ctx ns => fuel

end

/-- `Parser.Parse(path, ctx)`: requires a non-empty path, strips one leading
slash, cleans the path, runs `parsePath` with an empty path stack and an
empty cache, fills an empty `*Error` path, and prepends `path + "\n\t"` to a
`CycleError` chain — the only place a path is prepended to such a chain. -/
def parseTemplate (fuel : Nat) (reader : ReaderMap) (path : String) (ctx : Ctx) :
    Except ExpErr (String × List ENode) :=
  if path = "" then .error .errInvalidPath
  else
    let path1 := if headIsSlash path then dropFirst path else path
    match toAbsolutePath "/" path1 with
    | .error e => .error e
    | .ok path2 =>
      match parsePathE fuel reader { paths := [], treeCache := [] } path2 ctx with
      | .error e =>
        .error (match e with
          | .errorPos "" msg => .errorPos path2 msg
          | .cycle c => .cycle (path2 ++ "\n\t" ++ c)
          | e => e)
      | .ok (t, _) => .ok t

/-- The C5 scenario reader: `/a` includes `/b` and `/b` includes `/a`. -/
def readerAB : ReaderMap :=
  [("/a", [.includeN "/b" .html none]), ("/b", [.includeN "/a" .html none])]

/-- Whether `needle` occurs as a contiguous substring of `hay`. -/
def strHasSub (needle hay : String) : Bool :=
  (List.range (hay.length + 1)).any fun i => needle.data.isPrefixOf (hay.data.drop i)

/-!
Tree-cache concurrency model.  The cache implementation (`cache.Get/Add/Done`)
is not under `src/` — only its test (`src/compiler/parser_cache_test.go`) and
its caller are — so the cache is modelled from the spec (§4.1/§5): a key is
free, reserved by a worker, or holds a stored tree; `Get` hits a stored tree,
reserves a free key, and blocks while the key is reserved by another worker
(re-checking when scheduled again, the condition-variable loop); `Add` stores
the tree and wakes waiters; `Done` releases the caller's reservation.  The
test's sleeps pin one global interleaving, modelled as an explicit schedule
of atomic steps.
-/

/-- The two workers of the test's concurrent phase. -/
inductive WId where
  | wa | wb
  deriving DecidableEq, Repr, Fintype

/-- The state of the single cache key the test uses. -/
inductive KeyState where
  | free
  | reservedBy (w : WId)
  | stored
  deriving DecidableEq, Repr, Fintype

/-- One step of a test worker's program: log a step label, or call `Get`,
`Add` or `Done` on the shared key. -/
inductive WOp where
  | emit (s : String)
  | get
  | add
  | done
  deriving DecidableEq, Repr

/-- State of the two-worker test run: the key, each worker's remaining
program, the emitted step labels, and the `(tree != nil, ok)` results each
worker observed from its `Get` calls. -/
structure TSys where
  key : KeyState
  progA : List WOp
  progB : List WOp
  trace : List String
  gotA : List (Bool × Bool)
  gotB : List (Bool × Bool)

/-- Execute one operation of worker `w`; a `Get` on a key reserved by the
other worker leaves the state unchanged (the worker stays blocked and its
operation pending). -/
def stepT (w : WId) (s : TSys) : TSys :=
  let prog := match w with | .wa => s.progA | .wb => s.progB
  match prog with
  | [] => s
  | op :: rest =>
    let setProg := fun (s' : TSys) =>
      match w with
      | .wa => { s' with progA := rest }
      | .wb => { s' with progB := rest }
    let record := fun (s' : TSys) (r : Bool × Bool) =>
      match w with
      | .wa => { s' with gotA := s'.gotA ++ [r] }
      | .wb => { s' with gotB := s'.gotB ++ [r] }
    match op with
    | .emit str => setProg { s with trace := s.trace ++ [str] }
    | .get =>
      match s.key with
      | .stored => setProg (record s (true, true))
      | .free => setProg (record { s with key := .reservedBy w } (false, false))
      | .reservedBy w' => if w' = w then s else s
    | .add => setProg { s with key := .stored }
    | .done =>
      match s.key with
      | .reservedBy w' => if w' = w then setProg { s with key := .free } else setProg s
      | _ => setProg s

/-- Worker a's program in the test's concurrent phase. -/
def progOfA : List WOp :=
  [.get, .emit "a: done...\n", .done, .emit "a: done ok\n",
   .emit "a: get...\n", .get, .emit "a: get ok\n"]

/-- Worker b's program in the test's concurrent phase. -/
def progOfB : List WOp :=
  [.emit "b: get...\n", .get, .emit "b: get ok\n",
   .emit "b: add...\n", .add, .emit "b: add ok\n", .done]

/-- The initial state of the test's concurrent phase. -/
def initT : TSys :=
  { key := .free, progA := progOfA, progB := progOfB,
    trace := [], gotA := [], gotB := [] }

/-- Run a schedule of worker steps. -/
def runT (sched : List WId) (s : TSys) : TSys :=
  sched.foldl (fun s' w => stepT w s') s

/-- The global order of atomic steps pinned by the test's sleeps; the third
and tenth entries are the blocked `Get` attempts that make no progress. -/
def testSched : List WId :=
  [.wa, .wb, .wb, .wa, .wa, .wb, .wb, .wa, .wa, .wa, .wb, .wb, .wb, .wa, .wa, .wb]

/-- The step sequence the test expects. -/
def expectedSteps : List String :=
  ["b: get...\n", "a: done...\n", "b: get ok\n", "a: done ok\n",
   "a: get...\n", "b: add...\n", "b: add ok\n", "a: get ok\n"]

/-!
The at-most-once-reader property is proved over all interleavings of two
workers each running the full parse protocol of `expansion.parsePath`:
`Get`; on a miss read the source, `Add` the tree and call `Done`; on a hit
finish immediately.
-/

/-- A protocol worker's program counter: before `Get`; reserved and about to
invoke the reader; about to `Add`; about to `Done`; finished after parsing;
finished after a cache hit. -/
inductive PPc where
  | start
  | toRead
  | toAdd
  | toDone
  | doneFin
  | hitFin
  deriving DecidableEq, Repr, Fintype

/-- State of the two-worker parse protocol on one key. -/
structure PSys where
  key : KeyState
  pcA : PPc
  pcB : PPc
  deriving DecidableEq, Fintype

/-- Program counter of a worker. -/
def PSys.pc (s : PSys) (w : WId) : PPc :=
  match w with | .wa => s.pcA | .wb => s.pcB

/-- Replace a worker's program counter. -/
def PSys.setPc (s : PSys) (w : WId) (p : PPc) : PSys :=
  match w with | .wa => { s with pcA := p } | .wb => { s with pcB := p }

/-- One protocol step of worker `w`: `Get` (hit, miss-and-reserve, or block),
reader invocation, `Add`, `Done`. -/
def stepP (w : WId) (s : PSys) : PSys :=
  match s.pc w with
  | .start =>
    match s.key with
    | .stored => s.setPc w .hitFin
    | .free => { s.setPc w .toRead with key := .reservedBy w }
    | .reservedBy _ => s
  | .toRead => s.setPc w .toAdd
  | .toAdd => { s.setPc w .toDone with key := .stored }
  | .toDone =>
    match s.key with
    | .reservedBy w' => if w' = w then { s.setPc w .doneFin with key := .free }
                        else s.setPc w .doneFin
    | _ => s.setPc w .doneFin
  | .doneFin => s
  | .hitFin => s

/-- The initial protocol state. -/
def initP : PSys :=
  { key := .free, pcA := .start, pcB := .start }

/-- Run a schedule of protocol steps. -/
def runP (sched : List WId) (s : PSys) : PSys :=
  sched.foldl (fun s' w => stepP w s') s

/-- How many times a worker at this program counter has invoked the reader
(the `toRead` transition is the reader invocation, taken exactly once on the
way to `toAdd`). -/
def readsOf (p : PPc) : Nat :=
  match p with
  | .toAdd | .toDone | .doneFin => 1
  | _ => 0

/-- Total reader invocations performed so far. -/
def totalReads (s : PSys) : Nat :=
  readsOf s.pcA + readsOf s.pcB

/-- Whether a worker has passed the miss-and-reserve branch of `Get`. -/
def passedGet (p : PPc) : Bool :=
  match p with
  | .toRead | .toAdd | .toDone | .doneFin => true
  | _ => false

/-- The inductive invariant of the protocol: at most one worker ever passes
the miss branch, a free key means nobody has started, and a reserved key
means the reserver is between its miss and its `Add` while the other worker
has not passed. -/
def invP (s : PSys) : Prop :=
  ((if passedGet s.pcA then 1 else 0) + (if passedGet s.pcB then 1 else 0) ≤ 1) ∧
  (s.key = .free → s.pcA = .start ∧ s.pcB = .start) ∧
  (∀ w, s.key = .reservedBy w →
    (s.pc w = .toRead ∨ s.pc w = .toAdd) ∧
    (∀ w', w' ≠ w → s.pc w' = .start ∨ s.pc w' = .hitFin))

instance (s : PSys) : Decidable (invP s) := by
  unfold invP
  infer_instance

/-! Helper lemmas shared by the claim theorems. -/

/-- `int8(L)` for a pool length in `[128, 255]` wraps to `L - 256`. -/
theorem int8ofNat_midrange (L : Nat) (h1 : 128 ≤ L) (h2 : L ≤ 255) :
    int8ofNat L = (L : Int) - 256 := by
  unfold int8ofNat
  have hm : L % 256 = L := Nat.mod_eq_of_lt (by omega)
  rw [hm]
  split
  · omega
  · rfl

/-- Converting a `Nat` to Go `int8` and back to Go `uint8` reduces it
modulo 256. -/
theorem uint8_int8_cancel (m : Nat) : uint8ofInt (int8ofNat m) = m % 256 := by
  unfold uint8ofInt int8ofNat
  split <;> omega

set_option maxRecDepth 4000 in
/-- The protocol invariant holds initially. -/
theorem invP_init : invP initP := by decide

set_option maxRecDepth 4000 in
/-- The protocol invariant is preserved by every step of either worker. -/
theorem invP_step : ∀ (w : WId) (s : PSys), invP s → invP (stepP w s) := by decide

set_option maxRecDepth 4000 in
/-- The protocol invariant bounds the number of reader invocations by one. -/
theorem invP_reads : ∀ s : PSys, invP s → totalReads s ≤ 1 := by decide

/-- The protocol invariant is preserved by any schedule. -/
theorem invP_runP (sched : List WId) (s : PSys) (h : invP s) : invP (runP sched s) := by
  induction sched generalizing s with
  | nil => exact h
  | cons w rest ih => exact ih _ (invP_step w s h)

set_option maxRecDepth 2000 in
/-- Evaluation of 128 successive `MakeInterfaceConstant` calls. -/
theorem iter128_fact :
    (iterInterface 128).map (fun p => (p.1.getLast?, p.2.fn.constGeneral.length)) =
      .ok (some (-128), 128) := rfl

set_option maxRecDepth 2000 in
/-- The 129th `MakeInterfaceConstant` call panics. -/
theorem iter129_fact : iterInterface 129 = .error .interfaceRefsLimit := rfl

/-! Claim theorems. -/

/-- C1: on a fresh builder, the sequence `EnterStack; r1 = NewRegister(Int);
r2 = NewRegister(Int); ExitStack; r3 = NewRegister(Int); End()` returns
register indices `r1 = 1`, `r2 = 2`, `r3 = 1`, and finalization commits an
Int-class high-water mark `RegNum[0] = 2`. -/
theorem C1_scope_register_reuse :
    (c1run.map fun t => (t.1, t.2.1, t.2.2.1, t.2.2.2.regNum 0)) =
      .ok (1, 2, 1, 2) := rfl

/-- C2: on a fresh builder, after `lbl = NewLabel(); Goto(lbl);
a = CurrentAddr(); Nop(); SetLabelAddr(lbl); End()` the emitted instruction
at address 0 is the `Goto`, and its `(A, B, C)` operands decode (little-endian
bytes) to `a + 1`; here `a = 1` and the decoded target is `2`. -/
theorem C2_forward_jump_patch :
    (c2run.map fun p =>
      ((p.2.body.get? 0).map fun i => (i.op, decodeAddr i.a i.b i.c), p.1 + 1)) =
      .ok (some (.opGoto, 2), 2) := rfl

/-- C3: evaluating the code at the failing input
`Sub(k=false, x=1, y=1, z=1, kind=Float64); End()` shows the claimed
invariant broken: the emitted `OpSubFloat64` instruction uses float register
1 in all three operands, yet `Sub` registered the operands in the Int class
(`RegNum[0] = 1`) and the finalized Float high-water mark stays `RegNum[1] = 0`,
so some register operand exceeds its class's committed high-water mark. -/
theorem C3_sub_float_highwater_violation :
    c3run = .ok c3fn ∧
    c3fn.body = [{ op := .opSubFloat64, konst := false, a := 1, b := 1, c := 1 }] ∧
    c3fn.regNum 0 = 1 ∧ c3fn.regNum 1 = 0 ∧
    ¬ regOperandsBounded c3fn := by
  refine ⟨rfl, rfl, rfl, rfl, by decide⟩

/-- C6: `MakeInterfaceConstant` appends its argument to the `General` pool
and returns the negated successor of the pool length at entry (equivalently
`-len(General)` after the append); from a fresh builder the first 128 calls
succeed, the 128th returning index −128, and the 129th call is the fatal
`LimitExceeded` panic (index reaching −129). -/
theorem C6_make_interface_constant :
    (∀ (b : Builder) (c : GoValue), b.fn.constGeneral.length ≤ 127 →
      (makeInterfaceConstant c b).map (fun p => (p.1, p.2.fn.constGeneral)) =
        .ok (-((b.fn.constGeneral.length : Int) + 1), b.fn.constGeneral ++ [c])) ∧
    (iterInterface 128).map (fun p => (p.1.getLast?, p.2.fn.constGeneral.length)) =
      .ok (some (-128), 128) ∧
    iterInterface 129 = .error .interfaceRefsLimit := by
  refine ⟨?_, ?_, ?_⟩
  · intro b c h
    have hne : ¬(-(b.fn.constGeneral.length : Int) - 1 = -129) := by omega
    have hwrap : int8wrap (-(b.fn.constGeneral.length : Int) - 1) =
        -(b.fn.constGeneral.length : Int) - 1 := by
      unfold int8wrap
      omega
    simp only [makeInterfaceConstant, if_neg hne, Except.map, hwrap]
    congr 2
    omega
  · exact iter128_fact
  · exact iter129_fact

/-- C7: encoding any value in `[0, 2²⁴)` into the three operand bytes with
`encodeAddr` and decoding them back little-endian is the identity. -/
theorem C7_encode_decode_roundtrip :
    ∀ v : Nat, v < 2 ^ 24 →
      decodeAddr (encodeAddr v).1 (encodeAddr v).2.1 (encodeAddr v).2.2 = v := by
  intro v hv
  norm_num at hv
  simp only [encodeAddr, decodeAddr, uint8_int8_cancel]
  omega

/-- C7 witness: the round trip at the concrete value 70000. -/
theorem C7_witness :
    70000 < 2 ^ 24 ∧
    decodeAddr (encodeAddr 70000).1 (encodeAddr 70000).2.1 (encodeAddr 70000).2.2 =
      70000 :=
  ⟨by norm_num, C7_encode_decode_roundtrip 70000 (by norm_num)⟩

/-- C6 witness: the first call on a fresh builder appends and returns −1. -/
theorem C6_witness :
    (makeInterfaceConstant ⟨5⟩ (newBuilder {})).map
      (fun p => (p.1, p.2.fn.constGeneral)) = .ok (-1, [⟨5⟩]) := by
  have h := C6_make_interface_constant.1 (newBuilder {}) ⟨5⟩ (by decide)
  simpa using h

/-- C10: once a pool holds a length `L` with `128 ≤ L ≤ 255`, each of
`MakeIntConstant`, `MakeFloatConstant`, `MakeStringConstant` and
`MakeGeneralConstant` still appends but returns `int8(L) = L - 256`: a
negative index that differs from the entry's pool position and lies in
`[-128, -1]`, the subspace `MakeInterfaceConstant` reserves for interface
constants; no error is raised until a call finds the pool already at
length 256. -/
theorem C10_constant_index_wrap :
    ∀ b : Builder,
      ((∀ c : Int, 128 ≤ b.fn.constInt.length → b.fn.constInt.length ≤ 255 →
          (makeIntConstant c b).map (fun p => (p.1, p.2.fn.constInt)) =
            .ok ((b.fn.constInt.length : Int) - 256, b.fn.constInt ++ [c]) ∧
          ((b.fn.constInt.length : Int) - 256 < 0 ∧
           (b.fn.constInt.length : Int) - 256 ≠ (b.fn.constInt.length : Int) ∧
           -128 ≤ (b.fn.constInt.length : Int) - 256)) ∧
        (256 ≤ b.fn.constInt.length →
          ∀ c, makeIntConstant c b = .error .intRefsLimit)) ∧
      ((∀ c : GoValue, 128 ≤ b.fn.constFloat.length → b.fn.constFloat.length ≤ 255 →
          (makeFloatConstant c b).map (fun p => (p.1, p.2.fn.constFloat)) =
            .ok ((b.fn.constFloat.length : Int) - 256, b.fn.constFloat ++ [c]) ∧
          ((b.fn.constFloat.length : Int) - 256 < 0 ∧
           (b.fn.constFloat.length : Int) - 256 ≠ (b.fn.constFloat.length : Int) ∧
           -128 ≤ (b.fn.constFloat.length : Int) - 256)) ∧
        (256 ≤ b.fn.constFloat.length →
          ∀ c, makeFloatConstant c b = .error .floatRefsLimit)) ∧
      ((∀ c : String, 128 ≤ b.fn.constString.length → b.fn.constString.length ≤ 255 →
          (makeStringConstant c b).map (fun p => (p.1, p.2.fn.constString)) =
            .ok ((b.fn.constString.length : Int) - 256, b.fn.constString ++ [c]) ∧
          ((b.fn.constString.length : Int) - 256 < 0 ∧
           (b.fn.constString.length : Int) - 256 ≠ (b.fn.constString.length : Int) ∧
           -128 ≤ (b.fn.constString.length : Int) - 256)) ∧
        (256 ≤ b.fn.constString.length →
          ∀ c, makeStringConstant c b = .error .stringRefsLimit)) ∧
      ((∀ c : GoValue, 128 ≤ b.fn.constGeneral.length → b.fn.constGeneral.length ≤ 255 →
          (makeGeneralConstant c b).map (fun p => (p.1, p.2.fn.constGeneral)) =
            .ok ((b.fn.constGeneral.length : Int) - 256, b.fn.constGeneral ++ [c]) ∧
          ((b.fn.constGeneral.length : Int) - 256 < 0 ∧
           (b.fn.constGeneral.length : Int) - 256 ≠ (b.fn.constGeneral.length : Int) ∧
           -128 ≤ (b.fn.constGeneral.length : Int) - 256)) ∧
        (256 ≤ b.fn.constGeneral.length →
          ∀ c, makeGeneralConstant c b = .error .generalRefsLimit)) := by
  intro b
  refine ⟨⟨?_, ?_⟩, ⟨?_, ?_⟩, ⟨?_, ?_⟩, ⟨?_, ?_⟩⟩
  · intro c h1 h2
    have hng : ¬ b.fn.constInt.length > 255 := by omega
    simp only [makeIntConstant, if_neg hng, Except.map, int8ofNat_midrange _ h1 h2]
    refine ⟨trivial, by omega, by omega, by omega⟩
  · intro h c
    have hg : b.fn.constInt.length > 255 := by omega
    simp only [makeIntConstant, if_pos hg]
  · intro c h1 h2
    have hng : ¬ b.fn.constFloat.length > 255 := by omega
    simp only [makeFloatConstant, if_neg hng, Except.map, int8ofNat_midrange _ h1 h2]
    refine ⟨trivial, by omega, by omega, by omega⟩
  · intro h c
    have hg : b.fn.constFloat.length > 255 := by omega
    simp only [makeFloatConstant, if_pos hg]
  · intro c h1 h2
    have hng : ¬ b.fn.constString.length > 255 := by omega
    simp only [makeStringConstant, if_neg hng, Except.map, int8ofNat_midrange _ h1 h2]
    refine ⟨trivial, by omega, by omega, by omega⟩
  · intro h c
    have hg : b.fn.constString.length > 255 := by omega
    simp only [makeStringConstant, if_pos hg]
  · intro c h1 h2
    have hng : ¬ b.fn.constGeneral.length > 255 := by omega
    simp only [makeGeneralConstant, if_neg hng, Except.map, int8ofNat_midrange _ h1 h2]
    refine ⟨trivial, by omega, by omega, by omega⟩
  · intro h c
    have hg : b.fn.constGeneral.length > 255 := by omega
    simp only [makeGeneralConstant, if_pos hg]

set_option maxRecDepth 4000 in
/-- C10 witness: with an Int pool of 128 entries, the 129th call returns
−128 while storing at position 128; with a pool of 256 entries, the call is
the fatal limit panic. -/
theorem C10_witness :
    (makeIntConstant 7 { fn := { constInt := List.replicate 128 0 } }).map
        (fun p => (p.1, p.2.fn.constInt)) =
      .ok (-128, List.replicate 128 0 ++ [7]) ∧
    makeIntConstant 7 { fn := { constInt := List.replicate 256 0 } } =
      .error .intRefsLimit := by
  constructor
  · have h := ((C10_constant_index_wrap { fn := { constInt := List.replicate 128 0 } }).1.1
      7 (by simp) (by simp)).1
    simpa using h
  · exact (C10_constant_index_wrap { fn := { constInt := List.replicate 256 0 } }).1.2
      (by simp) 7

/-- C4: in template mode (context not `None`), when the root tree already
holds a node that is not a `Text` node — for example the `If` node of an open
`{% if %}` — the extends case fails with "extends can only be the first
statement", and when an extends was already parsed (`isExtended`), any
further extends fails with "extends already exists"; a successful extends
sets `isExtended`, so at most one extends can succeed per file. -/
theorem C4_extends_first_and_single :
    ∀ (p : ExtState) (tokCtx : Ctx) (tt : TokTyp) (s : String)
      (vp : String → Bool) (et : TokTyp),
      p.ctx ≠ .ctxNone →
      ((p.isExtended = false → (∃ n ∈ p.treeNodes, n ≠ NodeK.text) →
          parseExtendsCase p tokCtx tt s vp et = .error .extendsNotFirst ∧
          parseErrMsg .extendsNotFirst = "extends can only be the first statement") ∧
       (p.isExtended = true →
          parseExtendsCase p tokCtx tt s vp et = .error .extendsAlreadyExists ∧
          parseErrMsg .extendsAlreadyExists = "extends already exists") ∧
       (∀ q, parseExtendsCase p tokCtx tt s vp et = .ok q → q.isExtended = true)) := by
  intro p tokCtx tt s vp et hctx
  refine ⟨?_, ?_, ?_⟩
  · rintro hext ⟨n, hn, hnt⟩
    have hne2 : ¬ (p.isExtended = true) := by simp [hext]
    have hfirst : p.treeNodes.length > 0 ∧
        (p.treeNodes.head? ≠ some NodeK.text ∨ p.treeNodes.length > 1) := by
      rcases hL : p.treeNodes with _ | ⟨a, l⟩
      · rw [hL] at hn
        simp at hn
      · rw [hL] at hn
        rcases l with _ | ⟨a2, l2⟩
        · simp at hn
          subst hn
          exact ⟨by simp, Or.inl (by simpa using hnt)⟩
        · exact ⟨by simp, Or.inr (by simp only [List.length_cons]; omega)⟩
    rw [parseExtendsCase, if_neg hctx, if_neg hne2, if_pos hfirst]
    exact ⟨rfl, rfl⟩
  · intro hext
    rw [parseExtendsCase, if_neg hctx, if_pos hext]
    exact ⟨rfl, rfl⟩
  · intro q hq
    rw [parseExtendsCase, if_neg hctx] at hq
    by_cases h2 : p.isExtended = true
    · rw [if_pos h2] at hq
      cases hq
    · rw [if_neg h2] at hq
      by_cases h3 : p.treeNodes.length > 0 ∧
          (p.treeNodes.head? ≠ some NodeK.text ∨ p.treeNodes.length > 1)
      · rw [if_pos h3] at hq
        cases hq
      · rw [if_neg h3] at hq
        by_cases h4 : tokCtx ≠ p.ctx ∧ (tokCtx = .attribute ∨ tokCtx = .unquotedAttribute)
        · rw [if_pos h4] at hq
          cases hq
        · rw [if_neg h4] at hq
          by_cases h5 : tokCtx ≠ p.ctx ∧ tokCtx = .script
          · rw [if_pos h5] at hq
            cases hq
          · rw [if_neg h5] at hq
            by_cases h6 : tokCtx ≠ p.ctx ∧ tokCtx = .css
            · rw [if_pos h6] at hq
              cases hq
            · rw [if_neg h6] at hq
              by_cases h7 : tt ≠ TokTyp.interpretedString ∧ tt ≠ TokTyp.rawString
              · rw [if_pos h7] at hq
                cases hq
              · rw [if_neg h7] at hq
                by_cases h8 : vp s = true
                · rw [if_neg (show ¬ (¬ vp s = true) by simp [h8])] at hq
                  by_cases h9 : et ≠ TokTyp.endStatement
                  · rw [if_pos h9] at hq
                    cases hq
                  · rw [if_neg h9] at hq
                    cases hq
                    rfl
                · rw [if_pos (show (¬ vp s = true) by simp [h8])] at hq
                  cases hq


/-- C4 witness: the two failures at concrete parser states — an open `if`
already in the tree, and a file that already extended. -/
theorem C4_witness :
    parseExtendsCase ⟨.html, false, [NodeK.ifN]⟩ .html .interpretedString "/base"
        (fun _ => true) .endStatement = .error .extendsNotFirst ∧
    parseExtendsCase ⟨.html, true, [NodeK.text, NodeK.extendsN]⟩ .html
        .interpretedString "/base" (fun _ => true) .endStatement =
      .error .extendsAlreadyExists := by
  constructor
  · exact ((C4_extends_first_and_single ⟨.html, false, [NodeK.ifN]⟩ .html
      .interpretedString "/base" (fun _ => true) .endStatement (by simp)).1
      rfl ⟨NodeK.ifN, by simp, by simp⟩).1
  · exact ((C4_extends_first_and_single ⟨.html, true, [NodeK.text, NodeK.extendsN]⟩
      .html .interpretedString "/base" (fun _ => true) .endStatement (by simp)).2.1
      rfl).1

set_option maxRecDepth 4000 in
/-- C5 counterexample: with `/a` including `/b` and `/b` including `/a`,
`Parse("/a")` does fail with a `CycleError`, but its chain is
`"/a\n\tinclude include /a"`: the recursive wrapping prepends the directive
keyword rather than the current path, so the full message does not contain
`"/b"` — contradicting the claim that the final text contains both paths. -/
theorem C5_counterexample :
    parseTemplate 10 readerAB "/a" .html =
      .error (.cycle "/a\n\tinclude include /a") ∧
    strHasSub "/b" (cycleMsg "/a\n\tinclude include /a") = false :=
  ⟨rfl, rfl⟩

set_option maxRecDepth 4000 in
/-- C5 (amended): `Parse("/a")` on the `/a`/`/b` include cycle fails with a
`CycleError`; a `Cycle(inner)` from recursive expansion of an include is
wrapped as `Cycle("include " + inner)` (imports and extends use
`"imports "`), and only the top-level `Parse` prepends
`currentPath + "\n\t"`; the final text therefore contains `"/a"` (twice) but
not `"/b"`. -/
theorem C5_cycle_wrap_amended :
    parseTemplate 10 readerAB "/a" .html =
      .error (.cycle "/a\n\tinclude include /a") ∧
    (∀ m c, wrapDirectiveErr "include" m (.cycle c) = .cycle ("include " ++ c)) ∧
    (∀ m c, wrapDirectiveErr "imports" m (.cycle c) = .cycle ("imports " ++ c)) ∧
    cycleMsg "/a\n\tinclude include /a" =
      "cycle not allowed\n/a\n\tinclude include /a" ∧
    strHasSub "/a" (cycleMsg "/a\n\tinclude include /a") = true := by
  exact ⟨rfl, fun m c => rfl, fun m c => rfl, rfl, rfl⟩

/-- C8 counterexample: a type-switch case expression that is neither an
identifier nor a bool/int/float/string literal — such as the selector
`v.x` — is not accepted: the parser's `default:` branch rejects it with
"`v.x` is not a type", contradicting the claim that any non-literal case
expression is accepted. -/
theorem C8_counterexample :
    checkTypeSwitchCase [.otherE "v.x"] = .error "v.x is not a type" := rfl

/-- C8 (amended): in a type switch the parser rejects the identifiers
`true`/`false` and int/float/string literals with kind-specific "not a type"
diagnostics; any other identifier is accepted (validation continues), and
every other expression form is also rejected with "`%s` is not a type" —
only identifier-shaped case expressions are left to the external type
checker. -/
theorem C8_type_switch_case_validation :
    (∀ rest, checkTypeSwitchCase (.ident "true" :: rest) =
      .error "true (type bool) is not a type") ∧
    (∀ rest, checkTypeSwitchCase (.ident "false" :: rest) =
      .error "false (type bool) is not a type") ∧
    (∀ t rest, checkTypeSwitchCase (.intLit t :: rest) =
      .error (t ++ " (type int) is not a type")) ∧
    (∀ t rest, checkTypeSwitchCase (.floatLit t :: rest) =
      .error (t ++ " (type float) is not a type")) ∧
    (∀ t rest, checkTypeSwitchCase (.stringLit t :: rest) =
      .error (t ++ " (type string) is not a type")) ∧
    (∀ t rest, checkTypeSwitchCase (.otherE t :: rest) =
      .error (t ++ " is not a type")) ∧
    (∀ name rest, name ≠ "true" → name ≠ "false" →
      checkTypeSwitchCase (.ident name :: rest) = checkTypeSwitchCase rest) ∧
    checkTypeSwitchCase [] = .ok () := by
  refine ⟨fun rest => rfl, fun rest => rfl, fun t rest => rfl, fun t rest => rfl,
    fun t rest => rfl, fun t rest => rfl, ?_, rfl⟩
  intro name rest h1 h2
  rw [checkTypeSwitchCase]
  rw [if_neg (by simp [h1, h2])]

/-- C8 witness: a plain identifier such as `int` passes the validation. -/
theorem C8_witness :
    checkTypeSwitchCase [.ident "int"] = .ok () := by
  rw [C8_type_switch_case_validation.2.2.2.2.2.2.1 "int" [] (by decide) (by decide)]
  exact C8_type_switch_case_validation.2.2.2.2.2.2.2

/-- C9: under the modelled cache contract, (1) the deterministic two-worker
interleaving fixed by the test's sleeps yields exactly the step sequence
`b: get... , a: done... , b: get ok, a: done ok, a: get... , b: add... ,
b: add ok, a: get ok`, with worker b's blocked `Get` returning a miss after
a's `Done` and worker a's second `Get` returning b's tree; (2) a `Get` by a
worker while the key is reserved by the other makes no progress (the caller
stays blocked); (3) over every interleaving of two workers running the full
parse protocol, the reader is invoked at most once for the key. -/
theorem C9_cache_once_and_interleaving :
    ((runT testSched initT).trace = expectedSteps ∧
     (runT testSched initT).gotB = [(false, false)] ∧
     (runT testSched initT).gotA = [(false, false), (true, true)] ∧
     (runT testSched initT).progA = [] ∧ (runT testSched initT).progB = []) ∧
    (∀ (s : TSys) (w w' : WId), s.key = .reservedBy w' → w' ≠ w →
      (match w with | .wa => s.progA | .wb => s.progB).head? = some .get →
      stepT w s = s) ∧
    (∀ sched : List WId, totalReads (runP sched initP) ≤ 1) := by
  refine ⟨⟨rfl, rfl, rfl, rfl, rfl⟩, ?_, ?_⟩
  · intro s w w' hkey hne hget
    cases w
    · cases hp : s.progA with
      | nil => rw [hp] at hget; cases hget
      | cons op rest =>
        rw [hp] at hget
        simp at hget
        subst hget
        simp [stepT, hp, hkey]
    · cases hp : s.progB with
      | nil => rw [hp] at hget; cases hget
      | cons op rest =>
        rw [hp] at hget
        simp at hget
        subst hget
        simp [stepT, hp, hkey]
  · intro sched
    exact invP_reads _ (invP_runP sched initP invP_init)

/-- C9 witness: the blocking conjunct at a concrete state — worker b's `Get`
on a key reserved by worker a makes no progress. -/
theorem C9_witness :
    stepT .wb { key := .reservedBy .wa, progA := [], progB := [.get],
                trace := [], gotA := [], gotB := [] } =
      { key := .reservedBy .wa, progA := [], progB := [.get],
        trace := [], gotA := [], gotB := [] } :=
  C9_cache_once_and_interleaving.2.1 _ .wb .wa rfl (by decide) rfl

end Scrigo
